import Mathlib

/-!
Shallow embedding of the resilient remote-data-access subsystem of the
FPL dashboard repository: the circuit breaker, retry strategy and
recovery registry of `src/utils/error_recovery.py`, and the session-state
TTL cache of `src/utils/performance_optimizer.py` together with the cache
statistics helpers of `src/core/cache/manager.py`.

Python `int` is modelled as `Int`, `float` durations and delays as `ℚ`,
and wall-clock timestamps (`datetime.now()`, `time.time()`) are passed
explicitly.  A protected operation is modelled by its observable outcome
(success with a duration, or a failure which may or may not be a
timeout/connectivity error).  Raised exceptions are modelled by explicit
result values.
-/

namespace FPLSpec

/-- Circuit breaker states (`CircuitState` in src/utils/error_recovery.py). -/
inductive CircuitState
  | closed
  | open_
  | halfOpen
deriving DecidableEq

/-- Configuration for a circuit breaker (`CircuitBreakerConfig`), with the
source's default field values. -/
structure CircuitBreakerConfig where
  failure_threshold : Int := 5
  recovery_timeout : Int := 60
  success_threshold : Int := 2
  timeout : Int := 30
deriving DecidableEq

/-- Mutable state of a `CircuitBreaker` instance: its configuration, the
state-machine state, the per-regime counters, the last failure timestamp
and the monotone totals. -/
structure CircuitBreaker where
  config : CircuitBreakerConfig
  state : CircuitState := .closed
  failure_count : Int := 0
  success_count : Int := 0
  last_failure_time : Option Int := none
  total_requests : Int := 0
  total_failures : Int := 0
  total_timeouts : Int := 0
deriving DecidableEq

/-- A freshly constructed breaker (`CircuitBreaker.__init__`). -/
def CircuitBreaker.init (config : CircuitBreakerConfig) : CircuitBreaker :=
  { config := config }

/-- Outcome of one invocation of the protected operation: it either returns
after `duration` seconds, or raises; `timeoutLike` records whether the
raised exception is a `TimeoutError`/`ConnectionError`. -/
inductive Outcome
  | success (duration : ℚ)
  | failure (timeoutLike : Bool)
deriving DecidableEq

/-- Result of `CircuitBreaker.call`: rejected fast (the breaker raised its
service-unavailable `FPLError` without invoking the operation), succeeded,
or failed (the operation's exception is re-raised). -/
inductive CallResult
  | rejected
  | succeeded
  | failed (timeoutLike : Bool)
deriving DecidableEq

/-- `CircuitBreaker._should_attempt_reset`: true when no failure was ever
recorded, or when at least `recovery_timeout` seconds elapsed since the
last failure. -/
def CircuitBreaker.should_attempt_reset (cb : CircuitBreaker) (now : Int) : Bool :=
  match cb.last_failure_time with
  | none => true
  | some t => decide (cb.config.recovery_timeout ≤ now - t)

/-- `CircuitBreaker._on_success`: in `HALF_OPEN`, count the success and close
the circuit (resetting both counters) once `success_threshold` is reached;
in `CLOSED`, reset the failure count.  The measured `duration` is accepted
and ignored, as in the source. -/
def CircuitBreaker.on_success (cb : CircuitBreaker) (_duration : ℚ) : CircuitBreaker :=
  match cb.state with
  | .halfOpen =>
      let cb1 := { cb with success_count := cb.success_count + 1 }
      if cb1.config.success_threshold ≤ cb1.success_count then
        { cb1 with state := .closed, failure_count := 0, success_count := 0 }
      else cb1
  | .closed => { cb with failure_count := 0 }
  | .open_ => cb

/-- `CircuitBreaker._on_failure`: bump the failure totals and count, record
the failure time, classify timeout/connectivity errors, and open the
circuit once `failure_threshold` is reached. -/
def CircuitBreaker.on_failure (cb : CircuitBreaker) (now : Int) (timeoutLike : Bool) :
    CircuitBreaker :=
  let cb1 := { cb with
    total_failures := cb.total_failures + 1,
    failure_count := cb.failure_count + 1,
    last_failure_time := some now }
  let cb2 := if timeoutLike then { cb1 with total_timeouts := cb1.total_timeouts + 1 } else cb1
  if cb2.config.failure_threshold ≤ cb2.failure_count then
    { cb2 with state := .open_ }
  else cb2

/-- The locked prologue of `CircuitBreaker.call` (lines 55-69): increment
`total_requests`; an `OPEN` breaker either rejects the call (second
component `false`) or transitions to `HALF_OPEN` and lets it proceed. -/
def CircuitBreaker.gate (cb : CircuitBreaker) (now : Int) : CircuitBreaker × Bool :=
  let cb1 := { cb with total_requests := cb.total_requests + 1 }
  if cb1.state = .open_ then
    if cb1.should_attempt_reset now then ({ cb1 with state := .halfOpen }, true)
    else (cb1, false)
  else (cb1, true)

/-- `CircuitBreaker.call`: run the gate; if the call proceeds, invoke the
operation once and apply the success or failure bookkeeping.  The third
component counts how many times the underlying operation was invoked. -/
def CircuitBreaker.call (cb : CircuitBreaker) (now : Int) (o : Outcome) :
    CallResult × CircuitBreaker × Nat :=
  let g := cb.gate now
  if g.2 then
    match o with
    | .success d => (.succeeded, (g.1).on_success d, 1)
    | .failure t => (.failed t, (g.1).on_failure now t, 1)
  else (.rejected, g.1, 0)

/-- Breakers reachable from a freshly constructed one through the `call`
operation alone. -/
inductive Reachable : CircuitBreaker → Prop
  | init (config : CircuitBreakerConfig) : Reachable (CircuitBreaker.init config)
  | step (cb : CircuitBreaker) (now : Int) (o : Outcome) :
      Reachable cb → Reachable ((cb.call now o).2.1)

/-- Errors a single breaker-protected attempt can raise: the breaker's
service-unavailable rejection, or a failure of the underlying operation. -/
inductive AttemptErr
  | serviceUnavailable
  | opFailure (timeoutLike : Bool)
deriving DecidableEq

/-- Errors as surfaced to a caller of the retry loop: either a raw
attempt error propagated unchanged, or the retry-exhausted `FPLError`
wrapping the last underlying error seen. -/
inductive FPLErr
  | raw (e : AttemptErr)
  | retryExhausted (last : Option AttemptErr)
deriving DecidableEq

/-- Retry strategy configuration (`RetryStrategy.__init__` defaults). -/
structure RetryStrategy where
  max_attempts : Int := 3
  base_delay : ℚ := 1
  max_delay : ℚ := 60
  backoff_factor : ℚ := 2
  jitter : Bool := true
deriving DecidableEq

/-- `RetryStrategy._calculate_delay`: exponential backoff capped at
`max_delay`; with jitter enabled the delay is scaled by `0.5 + r * 0.5`
where `r` is the `random.random()` draw for this attempt. -/
def RetryStrategy.calculate_delay (rs : RetryStrategy) (attempt : Nat) (r : ℚ) : ℚ :=
  let delay := rs.base_delay * rs.backoff_factor ^ attempt
  let delay := min delay rs.max_delay
  if rs.jitter then delay * (1/2 + r * (1/2)) else delay

/-- The retry loop of `RetryStrategy.execute`, generalised over an
operation that threads a state `σ` and reports how many times it invoked
the underlying protected work.  `remaining` counts the loop iterations
left (`max_attempts - attempt`); `last` is the last exception seen.  Each
iteration invokes `op` once; failures on a non-final attempt sleep for the
computed backoff delay (collected in the returned list); once attempts are
exhausted the loop raises the retry-exhausted error wrapping `last`. -/
def RetryStrategy.executeFrom {σ α : Type} (rs : RetryStrategy)
    (op : σ → Nat → Except AttemptErr α × σ × Nat) (rand : Nat → ℚ)
    (s : σ) (attempt remaining : Nat) (last : Option AttemptErr) :
    Except FPLErr α × σ × Nat × List ℚ :=
  match remaining with
  | 0 => (.error (.retryExhausted last), s, 0, [])
  | Nat.succ n =>
      let step := op s attempt
      match step.1 with
      | .ok a => (.ok a, step.2.1, step.2.2, [])
      | .error e =>
          let ds0 := if 0 < n then [rs.calculate_delay attempt (rand attempt)] else []
          let rest := rs.executeFrom op rand step.2.1 (attempt + 1) n (some e)
          (rest.1, rest.2.1, step.2.2 + rest.2.2.1, ds0 ++ rest.2.2.2)

/-- `RetryStrategy.execute` for a stateless operation whose behaviour on
attempt `i` is `op i`: returns the result, the number of invocations of
`op`, and the list of backoff delays slept. -/
def RetryStrategy.execute {α : Type} (rs : RetryStrategy) (op : Nat → Except AttemptErr α)
    (rand : Nat → ℚ) : Except FPLErr α × Nat × List ℚ :=
  let r := rs.executeFrom (fun (u : Unit) i => (op i, u, 1)) rand () 0 rs.max_attempts.toNat none
  (r.1, r.2.2.1, r.2.2.2)

/-- The breaker-protected closure built by `resilient_call`: attempt `i`
invokes `breaker.call` at time `nowAt i` on an operation whose outcome is
`outcomes i`; a fast-fail rejection raises the service-unavailable error,
an operation failure re-raises it. -/
def protectedOp (outcomes : Nat → Outcome) (nowAt : Nat → Int)
    (cb : CircuitBreaker) (attempt : Nat) :
    Except AttemptErr Unit × CircuitBreaker × Nat :=
  let c := cb.call (nowAt attempt) (outcomes attempt)
  match c.1 with
  | .rejected => (.error .serviceUnavailable, c.2.1, c.2.2)
  | .succeeded => (.ok (), c.2.1, c.2.2)
  | .failed t => (.error (.opFailure t), c.2.1, c.2.2)

/-- An entry of the bounded recent-error history
(`EnhancedErrorRecovery._record_error`). -/
structure ErrorRecord where
  service : String
  err : FPLErr
  time : Int
deriving DecidableEq

/-- State of the `EnhancedErrorRecovery` registry: the named breakers and
retry strategies, the per-service error counts and the bounded recent-error
history (a deque with `maxlen=100`). -/
structure EnhancedErrorRecovery where
  circuit_breakers : String → Option CircuitBreaker
  retry_strategies : String → Option RetryStrategy
  error_counts : String → Int
  recent_errors : List ErrorRecord

/-- A freshly constructed registry (`EnhancedErrorRecovery.__init__`):
no breakers, no strategies, all error counts zero, empty history. -/
def EnhancedErrorRecovery.init : EnhancedErrorRecovery :=
  { circuit_breakers := fun _ => none
    retry_strategies := fun _ => none
    error_counts := fun _ => 0
    recent_errors := [] }

/-- `EnhancedErrorRecovery.get_circuit_breaker`: return the breaker stored
for `service`, creating one from `config` (or the default configuration)
on first use. -/
def EnhancedErrorRecovery.get_circuit_breaker (rec : EnhancedErrorRecovery)
    (service : String) (config : Option CircuitBreakerConfig) :
    CircuitBreaker × EnhancedErrorRecovery :=
  match rec.circuit_breakers service with
  | some cb => (cb, rec)
  | none =>
      let cb := CircuitBreaker.init (config.getD {})
      (cb, { rec with
        circuit_breakers := fun k => if k = service then some cb else rec.circuit_breakers k })

/-- The retry-strategy catalog of `EnhancedErrorRecovery.get_retry_strategy`. -/
def strategyCatalog (name : String) : RetryStrategy :=
  if name = "api_calls" then
    { max_attempts := 3, base_delay := 1, backoff_factor := 2 }
  else if name = "critical_operations" then
    { max_attempts := 5, base_delay := 1/2, max_delay := 10 }
  else {}

/-- `EnhancedErrorRecovery.get_retry_strategy`: return the strategy cached
under `name`, creating the catalog entry on first use. -/
def EnhancedErrorRecovery.get_retry_strategy (rec : EnhancedErrorRecovery)
    (name : String) : RetryStrategy × EnhancedErrorRecovery :=
  match rec.retry_strategies name with
  | some rs => (rs, rec)
  | none =>
      let rs := strategyCatalog name
      (rs, { rec with
        retry_strategies := fun k => if k = name then some rs else rec.retry_strategies k })

/-- `EnhancedErrorRecovery._record_error`: bump the per-service count and
append to the recent-error history, evicting the oldest record past the
100-record capacity. -/
def EnhancedErrorRecovery.record_error (rec : EnhancedErrorRecovery)
    (service : String) (e : FPLErr) (t : Int) : EnhancedErrorRecovery :=
  let l := rec.recent_errors ++ [⟨service, e, t⟩]
  { rec with
    error_counts := fun k => if k = service then rec.error_counts k + 1 else rec.error_counts k
    recent_errors := l.drop (l.length - 100) }

/-- `EnhancedErrorRecovery.resilient_call`: resolve the breaker and the
retry strategy, run the retry loop over the breaker-protected closure, and
on terminal failure record the error (timestamped `tEnd`) before
re-raising.  Returns the surfaced result, the updated registry, the number
of invocations of the underlying operation, and the backoff delays. -/
def EnhancedErrorRecovery.resilient_call (rec : EnhancedErrorRecovery)
    (service strategy : String) (outcomes : Nat → Outcome) (nowAt : Nat → Int)
    (rand : Nat → ℚ) (tEnd : Int) :
    Except FPLErr Unit × EnhancedErrorRecovery × Nat × List ℚ :=
  let g := rec.get_circuit_breaker service none
  let h := (g.2).get_retry_strategy strategy
  let r := (h.1).executeFrom (protectedOp outcomes nowAt) rand g.1 0 (h.1).max_attempts.toNat none
  let rec3 := { h.2 with
    circuit_breakers := fun k => if k = service then some r.2.1 else (h.2).circuit_breakers k }
  match r.1 with
  | .ok a => (.ok a, rec3, r.2.2.1, r.2.2.2)
  | .error e => (.error e, rec3.record_error service e tEnd, r.2.2.1, r.2.2.2)

/-- The wrapper produced by the `resilient_api_call` decorator: every
invocation constructs a fresh `EnhancedErrorRecovery` registry and runs
`resilient_call` on it. -/
def resilient_api_call (service strategy : String) (outcomes : Nat → Outcome)
    (nowAt : Nat → Int) (rand : Nat → ℚ) (tEnd : Int) :
    Except FPLErr Unit × EnhancedErrorRecovery × Nat × List ℚ :=
  EnhancedErrorRecovery.init.resilient_call service strategy outcomes nowAt rand tEnd

/-- Two successive invocations of a function wrapped by
`resilient_api_call`, as the source executes them: each one runs the
wrapper afresh; no state flows from the first to the second. -/
def resilientApiCallTwice (service strategy : String)
    (outs1 outs2 : Nat → Outcome) (nowAt1 nowAt2 : Nat → Int)
    (rand1 rand2 : Nat → ℚ) (t1 t2 : Int) :
    (Except FPLErr Unit × EnhancedErrorRecovery × Nat × List ℚ) ×
    (Except FPLErr Unit × EnhancedErrorRecovery × Nat × List ℚ) :=
  (resilient_api_call service strategy outs1 nowAt1 rand1 t1,
   resilient_api_call service strategy outs2 nowAt2 rand2 t2)

/-- Session state as seen by the caching layer: the cached entries and
their store timestamps (`st.session_state[key]` and
`st.session_state[key + "_timestamp"]`), plus the `cache_stats` counters
of src/core/cache/manager.py. -/
structure SessionState (α : Type) where
  entries : String → Option α
  timestamps : String → Option ℚ
  hits : Int
  misses : Int
  invalidations : Int

/-- `CacheManager.record_cache_hit`. -/
def record_cache_hit {α : Type} (s : SessionState α) : SessionState α :=
  { s with hits := s.hits + 1 }

/-- `CacheManager.record_cache_miss`. -/
def record_cache_miss {α : Type} (s : SessionState α) : SessionState α :=
  { s with misses := s.misses + 1 }

/-- The compute-and-store path of
`PerformanceOptimizer.cache_expensive_calculation`: invoke the wrapped
function (whose result is `v`), store it under `key` with timestamp `now`,
and return it.  The third component counts invocations of the wrapped
function. -/
def computeAndStore {α : Type} (key : String) (v : α) (now : ℚ)
    (s : SessionState α) : α × SessionState α × Nat :=
  (v, { s with
    entries := fun k => if k = key then some v else s.entries k
    timestamps := fun k => if k = key then some now else s.timestamps k }, 1)

/-- One call of the wrapper built by
`PerformanceOptimizer.cache_expensive_calculation(ttl)`: if an entry is
stored under `key` and less than `ttl` seconds old (a missing timestamp
defaults to 0), return it without invoking the wrapped function; otherwise
invoke it (result `v`), store the result with the current time, and return
it. -/
def cache_expensive_calculation {α : Type} (ttl : ℚ) (key : String) (v : α)
    (now : ℚ) (s : SessionState α) : α × SessionState α × Nat :=
  match s.entries key with
  | some cached =>
      let cacheTime := (s.timestamps key).getD 0
      if now - cacheTime < ttl then (cached, s, 0)
      else computeAndStore key v now s
  | none => computeAndStore key v now s

/-- A sequence of consecutively recorded failures: fold
`CircuitBreaker._on_failure` over a list of (timestamp, timeout-like)
failure events. -/
def recordFailures (cb : CircuitBreaker) (evs : List (Int × Bool)) : CircuitBreaker :=
  evs.foldl (fun c e => c.on_failure e.1 e.2) cb

/-- Threshold invariant of reachable breakers: outside `CLOSED`, the
failure count has reached the failure threshold (nothing resets it before
the circuit closes again). -/
def BreakerInv (cb : CircuitBreaker) : Prop :=
  cb.state = .open_ ∨ cb.state = .halfOpen →
    cb.config.failure_threshold ≤ cb.failure_count

/-- A concrete configuration with failure threshold 1 and success
threshold 2, used in concrete traces. -/
def cfg1 : CircuitBreakerConfig :=
  { failure_threshold := 1, recovery_timeout := 60, success_threshold := 2, timeout := 30 }

/-- Fresh breaker over `cfg1`. -/
def cbA : CircuitBreaker := CircuitBreaker.init cfg1

/-- After one failed call at time 0: the circuit is open. -/
def cbB : CircuitBreaker := (cbA.call 0 (.failure false)).2.1

/-- After a successful probe at time 100: half-open with one success
banked. -/
def cbC : CircuitBreaker := (cbB.call 100 (.success 1)).2.1

/-- After a failed call at time 100: open again, with `success_count`
still 1. -/
def cbD : CircuitBreaker := (cbC.call 100 (.failure false)).2.1

/-- A default-configured fresh breaker (failure threshold 5, call timeout
30 seconds). -/
def cbT : CircuitBreaker := CircuitBreaker.init {}

/-- A session state holding value 7 under key "k" stored at time 0, with
all statistics counters at zero. -/
def s0 : SessionState Int :=
  { entries := fun k => if k = "k" then some 7 else none
    timestamps := fun k => if k = "k" then some 0 else none
    hits := 0
    misses := 0
    invalidations := 0 }

/-- The list of backoff delays produced by `k` consecutive failing
attempts starting at attempt index `a` (each delay computed by
`_calculate_delay` with that attempt's random draw). -/
def delaysFrom (rs : RetryStrategy) (rand : Nat → ℚ) (a k : Nat) : List ℚ :=
  match k with
  | 0 => []
  | Nat.succ m => rs.calculate_delay a (rand a) :: delaysFrom rs rand (a + 1) m

/-- The retry strategy of the spec's concrete backoff scenario:
three attempts, base delay 1s, backoff factor 2, jitter disabled. -/
def rsNoJitter : RetryStrategy :=
  { max_attempts := 3, base_delay := 1, backoff_factor := 2, jitter := false }

/-- A breaker stuck open: it opened at time 0 after reaching the default
failure threshold. -/
def cbOpen : CircuitBreaker :=
  { config := {}, state := .open_, failure_count := 5, success_count := 0,
    last_failure_time := some 0, total_requests := 5, total_failures := 5,
    total_timeouts := 0 }

/-- A registry whose breaker for service "svc" is `cbOpen`. -/
def recOpen : EnhancedErrorRecovery :=
  { EnhancedErrorRecovery.init with
    circuit_breakers := fun k => if k = "svc" then some cbOpen else none }

theorem should_attempt_reset_false (cb : CircuitBreaker) (now t : Int)
    (hlt : cb.last_failure_time = some t)
    (hrec : now - t < cb.config.recovery_timeout) :
    cb.should_attempt_reset now = false := by
  unfold CircuitBreaker.should_attempt_reset
  rw [hlt]
  simp
  omega

theorem should_attempt_reset_true (cb : CircuitBreaker) (now t : Int)
    (hlt : cb.last_failure_time = some t)
    (hrec : cb.config.recovery_timeout ≤ now - t) :
    cb.should_attempt_reset now = true := by
  unfold CircuitBreaker.should_attempt_reset
  rw [hlt]
  simpa using hrec

/-- C3: while the circuit is open and the recovery timeout has not elapsed
since the last failure, `call` rejects the request without invoking the
operation, increments only `total_requests`, and leaves every other field
of the breaker unchanged. -/
theorem open_fastfail_frame (cb : CircuitBreaker) (now t : Int) (o : Outcome)
    (hst : cb.state = .open_) (hlt : cb.last_failure_time = some t)
    (hrec : now - t < cb.config.recovery_timeout) :
    cb.call now o = (.rejected, { cb with total_requests := cb.total_requests + 1 }, 0) := by
  have hnot : ¬ (cb.config.recovery_timeout ≤ now - t) := by omega
  simp [CircuitBreaker.call, CircuitBreaker.gate, CircuitBreaker.should_attempt_reset,
    hst, hlt, hnot]

/-- C9: while the circuit is open and at least `recovery_timeout` seconds
have elapsed since the last failure, `call` transitions the breaker to
half-open before invoking the underlying operation, and invokes it exactly
once. -/
theorem open_recovery_halfopen_probe (cb : CircuitBreaker) (now t : Int) (o : Outcome)
    (hst : cb.state = .open_) (hlt : cb.last_failure_time = some t)
    (hrec : cb.config.recovery_timeout ≤ now - t) :
    (cb.gate now).2 = true ∧ (cb.gate now).1.state = .halfOpen ∧
    (cb.call now o).2.2 = 1 := by
  refine ⟨?_, ?_, ?_⟩ <;>
    simp [CircuitBreaker.call, CircuitBreaker.gate, CircuitBreaker.should_attempt_reset,
      hst, hlt, hrec]
  cases o <;> simp

theorem on_failure_config (cb : CircuitBreaker) (now : Int) (t : Bool) :
    (cb.on_failure now t).config = cb.config := by
  unfold CircuitBreaker.on_failure
  cases t <;> simp <;> split <;> rfl

theorem on_failure_count (cb : CircuitBreaker) (now : Int) (t : Bool) :
    (cb.on_failure now t).failure_count = cb.failure_count + 1 := by
  unfold CircuitBreaker.on_failure
  cases t <;> simp <;> split <;> rfl

theorem on_failure_state (cb : CircuitBreaker) (now : Int) (t : Bool) :
    (cb.on_failure now t).state =
      if cb.config.failure_threshold ≤ cb.failure_count + 1 then .open_ else cb.state := by
  unfold CircuitBreaker.on_failure
  cases t <;> simp <;> split <;> rfl

theorem recordFailures_opens (evs : List (Int × Bool)) :
    ∀ cb : CircuitBreaker, cb.state = .closed →
    cb.failure_count + evs.length = cb.config.failure_threshold →
    1 ≤ evs.length → (recordFailures cb evs).state = .open_ := by
  induction evs with
  | nil => intro cb _ _ hlen; exact absurd hlen (by simp)
  | cons e rest ih =>
      intro cb hst hsum _
      have hstep : recordFailures cb (e :: rest) =
          recordFailures (cb.on_failure e.1 e.2) rest := rfl
      rw [hstep]
      rcases Nat.eq_zero_or_pos rest.length with hr | hr
      · have hrest : rest = [] := List.length_eq_zero.mp hr
        subst hrest
        simp only [List.length_cons, List.length_nil] at hsum
        have hth : cb.config.failure_threshold ≤ cb.failure_count + 1 := by
          push_cast at hsum; omega
        unfold recordFailures
        simp only [List.foldl_nil]
        rw [on_failure_state, if_pos hth]
      · have hlt : cb.config.failure_threshold > cb.failure_count + 1 := by
          simp only [List.length_cons] at hsum
          push_cast at hsum; omega
        have hst' : (cb.on_failure e.1 e.2).state = .closed := by
          rw [on_failure_state, if_neg (by omega), hst]
        refine ih (cb.on_failure e.1 e.2) hst' ?_ hr
        rw [on_failure_count, on_failure_config]
        simp only [List.length_cons] at hsum
        push_cast at hsum ⊢; omega

/-- C5: starting from a closed breaker with zero failure count (and a
positive failure threshold, per the spec invariant on configurations),
recording exactly `failure_threshold` consecutive failures leaves the
circuit open. -/
theorem closed_threshold_failures_open (cb : CircuitBreaker) (evs : List (Int × Bool))
    (hst : cb.state = .closed) (hfc : cb.failure_count = 0)
    (hpos : 1 ≤ cb.config.failure_threshold)
    (hlen : (evs.length : Int) = cb.config.failure_threshold) :
    (recordFailures cb evs).state = .open_ := by
  refine recordFailures_opens evs cb hst (by omega) ?_
  have : 1 ≤ (evs.length : Int) := by omega
  exact_mod_cast this

theorem inv_on_failure (cb : CircuitBreaker) (now : Int) (t : Bool)
    (h : BreakerInv cb) : BreakerInv (cb.on_failure now t) := by
  intro hst
  rw [on_failure_count, on_failure_config]
  rw [on_failure_state] at hst
  by_cases hth : cb.config.failure_threshold ≤ cb.failure_count + 1
  · omega
  · rw [if_neg hth] at hst
    have := h hst
    omega

theorem gate_proj (cb : CircuitBreaker) (now : Int) :
    (cb.gate now).1.config = cb.config ∧
    (cb.gate now).1.failure_count = cb.failure_count ∧
    (cb.gate now).1.success_count = cb.success_count ∧
    (cb.gate now).1.last_failure_time = cb.last_failure_time := by
  unfold CircuitBreaker.gate
  dsimp only
  split
  · split <;> exact ⟨rfl, rfl, rfl, rfl⟩
  · exact ⟨rfl, rfl, rfl, rfl⟩

theorem gate_state_cases (cb : CircuitBreaker) (now : Int) :
    (cb.gate now).1.state = cb.state ∨
    (cb.state = .open_ ∧ (cb.gate now).1.state = .halfOpen) := by
  unfold CircuitBreaker.gate
  dsimp only
  split
  · rename_i hopen
    split
    · exact Or.inr ⟨hopen, rfl⟩
    · exact Or.inl rfl
  · exact Or.inl rfl

theorem inv_on_success (cb : CircuitBreaker) (d : ℚ)
    (h : BreakerInv cb) : BreakerInv (cb.on_success d) := by
  obtain ⟨cfg, st, fc, sc, lft, tr, tf, tt⟩ := cb
  cases st
  · intro hst
    simp [CircuitBreaker.on_success, BreakerInv] at hst
  · exact h
  · intro hst
    by_cases hth : cfg.success_threshold ≤ sc + 1
    · simp [CircuitBreaker.on_success, hth] at hst
    · simp [CircuitBreaker.on_success, hth] at hst ⊢
      exact h (Or.inr rfl)

theorem inv_gate (cb : CircuitBreaker) (now : Int)
    (h : BreakerInv cb) : BreakerInv (cb.gate now).1 := by
  intro hst
  obtain ⟨hc, hf, -, -⟩ := gate_proj cb now
  rw [hc, hf]
  rcases gate_state_cases cb now with hg | ⟨ho, -⟩
  · rw [hg] at hst
    exact h hst
  · exact h (Or.inl ho)

theorem inv_call (cb : CircuitBreaker) (now : Int) (o : Outcome)
    (h : BreakerInv cb) : BreakerInv ((cb.call now o).2.1) := by
  have hg := inv_gate cb now h
  cases o with
  | success d =>
      unfold CircuitBreaker.call
      dsimp only
      split
      · exact inv_on_success _ d hg
      · exact hg
  | failure t =>
      unfold CircuitBreaker.call
      dsimp only
      split
      · exact inv_on_failure _ now t hg
      · exact hg

theorem reachable_inv (cb : CircuitBreaker) (h : Reachable cb) : BreakerInv cb := by
  induction h with
  | init config =>
      intro hst
      rcases hst with h1 | h1 <;>
        simp [CircuitBreaker.init] at h1
  | step cb now o _ ih => exact inv_call cb now o ih

/-- C2: a reachable breaker that is half-open transitions to open on any
single recorded failure, whatever the current success count. -/
theorem reachable_halfopen_failure_opens (cb : CircuitBreaker) (h : Reachable cb)
    (hs : cb.state = .halfOpen) (now : Int) (t : Bool) :
    ((cb.call now (.failure t)).2.1).state = .open_ := by
  have hinv := reachable_inv cb h (Or.inr hs)
  have hgate : (cb.gate now) = ({ cb with total_requests := cb.total_requests + 1 }, true) := by
    unfold CircuitBreaker.gate
    dsimp only
    simp [hs]
  unfold CircuitBreaker.call
  dsimp only
  rw [hgate]
  simp only [eq_self_iff_true, if_true]
  rw [on_failure_state]
  dsimp only
  exact if_pos (by omega)

theorem cbB_reachable : Reachable cbB :=
  Reachable.step cbA 0 (.failure false) (Reachable.init cfg1)

theorem cbC_reachable : Reachable cbC :=
  Reachable.step cbB 100 (.success 1) cbB_reachable

theorem cbD_reachable : Reachable cbD :=
  Reachable.step cbC 100 (.failure false) cbC_reachable

/-- C2 witness: the concrete reachable half-open breaker `cbC` (success
count already 1) opens on a single failure. -/
theorem halfopen_failure_opens_witness :
    ((cbC.call 100 (.failure true)).2.1).state = .open_ :=
  reachable_halfopen_failure_opens cbC cbC_reachable (by decide) 100 true

/-- C1 counterexample: `cbD` is a reachable breaker in the open state whose
next call (at time 200, past the recovery timeout) transitions it to
half-open with `success_count` still 1, not 0 — the open-to-half-open
transition does not reset `success_count`. -/
theorem open_to_halfopen_no_reset_counterexample :
    Reachable cbD ∧ cbD.state = .open_ ∧ cbD.success_count = 1 ∧
    (cbD.gate 200).2 = true ∧ (cbD.gate 200).1.state = .halfOpen ∧
    (cbD.gate 200).1.success_count = 1 ∧
    ¬ ((cbD.gate 200).1.success_count = 0) :=
  ⟨cbD_reachable, by decide, by decide, by decide, by decide, by decide, by decide⟩

/-- C1 amended: `failureCount` is reset to 0 whenever a success leaves the
breaker closed (both on the half-open-to-closed transition and on a
success while already closed); `successCount` is reset to 0 on the
half-open-to-closed transition; the open-to-half-open transition leaves
both counters unchanged. -/
theorem counter_reset_on_enter_closed (cb : CircuitBreaker) (d : ℚ) (now : Int) :
    ((cb.on_success d).state = .closed → (cb.on_success d).failure_count = 0) ∧
    (cb.state = .halfOpen → (cb.on_success d).state = .closed →
      (cb.on_success d).success_count = 0) ∧
    (cb.state = .open_ →
      (cb.gate now).1.success_count = cb.success_count ∧
      (cb.gate now).1.failure_count = cb.failure_count) := by
  refine ⟨?_, ?_, fun _ => ⟨(gate_proj cb now).2.2.1, (gate_proj cb now).2.1⟩⟩
  · obtain ⟨cfg, st, fc, sc, lft, tr, tf, tt⟩ := cb
    cases st
    · intro _
      simp [CircuitBreaker.on_success]
    · intro h
      simp [CircuitBreaker.on_success] at h
    · by_cases hth : cfg.success_threshold ≤ sc + 1
      · intro _
        simp [CircuitBreaker.on_success, hth]
      · intro h
        simp [CircuitBreaker.on_success, hth] at h
  · obtain ⟨cfg, st, fc, sc, lft, tr, tf, tt⟩ := cb
    intro hs
    have hs' : st = CircuitState.halfOpen := hs
    subst hs'
    by_cases hth : cfg.success_threshold ≤ sc + 1
    · simp [CircuitBreaker.on_success, hth]
    · simp [CircuitBreaker.on_success, hth]

theorem executeFrom_zero {σ α : Type} (rs : RetryStrategy)
    (op : σ → Nat → Except AttemptErr α × σ × Nat) (rand : Nat → ℚ)
    (s : σ) (a : Nat) (last : Option AttemptErr) :
    rs.executeFrom op rand s a 0 last = (.error (.retryExhausted last), s, 0, []) := rfl

theorem executeFrom_succ_ok {σ α : Type} (rs : RetryStrategy)
    (op : σ → Nat → Except AttemptErr α × σ × Nat) (rand : Nat → ℚ)
    (s : σ) (a n : Nat) (last : Option AttemptErr) (v : α)
    (hop : (op s a).1 = .ok v) :
    rs.executeFrom op rand s a (n + 1) last = (.ok v, (op s a).2.1, (op s a).2.2, []) := by
  conv_lhs => unfold RetryStrategy.executeFrom
  dsimp only
  rw [hop]

theorem executeFrom_succ_err {σ α : Type} (rs : RetryStrategy)
    (op : σ → Nat → Except AttemptErr α × σ × Nat) (rand : Nat → ℚ)
    (s : σ) (a n : Nat) (last : Option AttemptErr) (e : AttemptErr)
    (hop : (op s a).1 = .error e) :
    rs.executeFrom op rand s a (n + 1) last =
      ((rs.executeFrom op rand (op s a).2.1 (a + 1) n (some e)).1,
       (rs.executeFrom op rand (op s a).2.1 (a + 1) n (some e)).2.1,
       (op s a).2.2 + (rs.executeFrom op rand (op s a).2.1 (a + 1) n (some e)).2.2.1,
       (if 0 < n then [rs.calculate_delay a (rand a)] else []) ++
         (rs.executeFrom op rand (op s a).2.1 (a + 1) n (some e)).2.2.2) := by
  conv_lhs => unfold RetryStrategy.executeFrom
  dsimp only
  rw [hop]

theorem executeFrom_allFail {α : Type} (rs : RetryStrategy) (errs : Nat → AttemptErr)
    (rand : Nat → ℚ) :
    ∀ (r a : Nat) (last : Option AttemptErr), 1 ≤ r →
    rs.executeFrom (fun (u : Unit) i =>
        ((Except.error (errs i) : Except AttemptErr α), u, 1)) rand () a r last =
      (.error (.retryExhausted (some (errs (a + r - 1)))), (), r,
       delaysFrom rs rand a (r - 1)) := by
  intro r
  induction r with
  | zero => intro a last h; omega
  | succ n ih =>
      intro a last _
      rw [executeFrom_succ_err rs _ rand () a n last (errs a) rfl]
      cases n with
      | zero =>
          rw [executeFrom_zero]
          simp [delaysFrom]
      | succ m =>
          rw [ih (a + 1) (some (errs a)) (by omega)]
          have hidx : a + 1 + (m + 1) - 1 = a + (m + 1 + 1) - 1 := by omega
          simp only [hidx]
          have hdel : delaysFrom rs rand a (m + 1 + 1 - 1) =
              rs.calculate_delay a (rand a) :: delaysFrom rs rand (a + 1) (m + 1 - 1) := rfl
          rw [hdel]
          simp [Nat.add_comm]

theorem executeFrom_result_shape {σ α : Type} (rs : RetryStrategy)
    (op : σ → Nat → Except AttemptErr α × σ × Nat) (rand : Nat → ℚ) :
    ∀ (r : Nat) (s : σ) (a : Nat) (last : Option AttemptErr),
    (∃ v, (rs.executeFrom op rand s a r last).1 = .ok v) ∨
    (∃ l, (rs.executeFrom op rand s a r last).1 = .error (.retryExhausted l)) := by
  intro r
  induction r with
  | zero => intro s a last; exact Or.inr ⟨last, rfl⟩
  | succ n ih =>
      intro s a last
      cases hop : (op s a).1 with
      | ok v =>
          rw [executeFrom_succ_ok rs op rand s a n last v hop]
          exact Or.inl ⟨v, rfl⟩
      | error e =>
          rw [executeFrom_succ_err rs op rand s a n last e hop]
          exact ih (op s a).2.1 (a + 1) (some e)

theorem resilient_result_shape (rec : EnhancedErrorRecovery) (service strategy : String)
    (outcomes : Nat → Outcome) (nowAt : Nat → Int) (rand : Nat → ℚ) (tEnd : Int) :
    (∃ v, (rec.resilient_call service strategy outcomes nowAt rand tEnd).1 = .ok v) ∨
    (∃ l, (rec.resilient_call service strategy outcomes nowAt rand tEnd).1 =
        .error (.retryExhausted l)) := by
  unfold EnhancedErrorRecovery.resilient_call
  dsimp only
  rcases executeFrom_result_shape
      ((rec.get_circuit_breaker service none).2.get_retry_strategy strategy).1
      (protectedOp outcomes nowAt) rand
      ((rec.get_circuit_breaker service none).2.get_retry_strategy
        strategy).1.max_attempts.toNat
      (rec.get_circuit_breaker service none).1 0 none with ⟨v, hv⟩ | ⟨l, hl⟩
  · rw [hv]
    exact Or.inl ⟨v, rfl⟩
  · rw [hl]
    exact Or.inr ⟨l, rfl⟩

/-- C4: an always-failing operation is invoked exactly `max_attempts`
times and the surfaced error is the retry-exhausted wrapper around the
last underlying error; a `resilient_call` caller only ever sees a success
or a retry-exhausted error, never a raw attempt error; and in the
concrete scenario where every attempt — the final one included — is a
breaker rejection, the surfaced error is the retry-exhausted wrapper
around the service-unavailable rejection, not the rejection itself. -/
theorem retry_exhausted_only_surfaced :
    (∀ (rs : RetryStrategy) (errs : Nat → AttemptErr) (rand : Nat → ℚ),
      1 ≤ rs.max_attempts →
      (rs.execute (fun i => (Except.error (errs i) : Except AttemptErr Unit)) rand).1 =
          .error (.retryExhausted (some (errs (rs.max_attempts.toNat - 1)))) ∧
      (rs.execute (fun i => (Except.error (errs i) : Except AttemptErr Unit)) rand).2.1 =
          rs.max_attempts.toNat) ∧
    (∀ (rec : EnhancedErrorRecovery) (service strategy : String) (outcomes : Nat → Outcome)
        (nowAt : Nat → Int) (rand : Nat → ℚ) (tEnd : Int),
      (∃ v, (rec.resilient_call service strategy outcomes nowAt rand tEnd).1 = .ok v) ∨
      (∃ l, (rec.resilient_call service strategy outcomes nowAt rand tEnd).1 =
          .error (.retryExhausted l))) ∧
    (recOpen.resilient_call "svc" "api_calls" (fun _ => .failure false) (fun _ => 1)
        (fun _ => 0) 99).1 = .error (.retryExhausted (some .serviceUnavailable)) := by
  refine ⟨?_, resilient_result_shape, ?_⟩
  · intro rs errs rand h1
    have hA := executeFrom_allFail (α := Unit) rs errs rand rs.max_attempts.toNat 0 none
      (by omega)
    unfold RetryStrategy.execute
    dsimp only
    rw [hA]
    exact ⟨by simp, rfl⟩
  · rfl

/-- C8: the inter-attempt delay is `min(baseDelay * backoffFactor ^
attempt, maxDelay)`, scaled when jitter is enabled by the factor `0.5 +
0.5 * r` (which lies in [1/2, 1] for the random draw r ∈ [0, 1)); an
always-failing operation sleeps only between attempts (`max_attempts - 1`
delays, none after the final attempt); and in the concrete scenario
maxAttempts=3, baseDelay=1s, backoffFactor=2, jitter disabled, the delays
are exactly 1s then 2s. -/
theorem backoff_delay_spec :
    (∀ (rs : RetryStrategy) (attempt : Nat) (r : ℚ), rs.jitter = false →
      rs.calculate_delay attempt r =
        min (rs.base_delay * rs.backoff_factor ^ attempt) rs.max_delay) ∧
    (∀ (rs : RetryStrategy) (attempt : Nat) (r : ℚ), rs.jitter = true →
      0 ≤ r → r < 1 →
      ∃ c : ℚ, 1/2 ≤ c ∧ c ≤ 1 ∧
        rs.calculate_delay attempt r =
          min (rs.base_delay * rs.backoff_factor ^ attempt) rs.max_delay * c) ∧
    (∀ (rs : RetryStrategy) (errs : Nat → AttemptErr) (rand : Nat → ℚ),
      1 ≤ rs.max_attempts →
      (rs.execute (fun i => (Except.error (errs i) : Except AttemptErr Unit)) rand).2.2 =
        delaysFrom rs rand 0 (rs.max_attempts.toNat - 1)) ∧
    (∀ (errs : Nat → AttemptErr) (rand : Nat → ℚ),
      (rsNoJitter.execute (fun i => (Except.error (errs i) : Except AttemptErr Unit))
          rand).2.2 = [1, 2]) := by
  refine ⟨?_, ?_, ?_, ?_⟩
  · intro rs attempt r hj
    unfold RetryStrategy.calculate_delay
    simp [hj]
  · intro rs attempt r hj h0 h1
    refine ⟨1/2 + r * (1/2), by linarith, by linarith, ?_⟩
    unfold RetryStrategy.calculate_delay
    simp [hj]
  · intro rs errs rand h1
    have hA := executeFrom_allFail (α := Unit) rs errs rand rs.max_attempts.toNat 0 none
      (by omega)
    unfold RetryStrategy.execute
    dsimp only
    rw [hA]
  · intro errs rand
    have hA := executeFrom_allFail (α := Unit) rsNoJitter errs rand
      rsNoJitter.max_attempts.toNat 0 none (by decide)
    unfold RetryStrategy.execute
    dsimp only
    rw [hA]
    norm_num [delaysFrom, RetryStrategy.calculate_delay, rsNoJitter]

theorem gate_pass (cb : CircuitBreaker) (now : Int) (h : cb.state ≠ .open_) :
    cb.gate now = ({ cb with total_requests := cb.total_requests + 1 }, true) := by
  unfold CircuitBreaker.gate
  dsimp only
  rw [if_neg h]

theorem on_failure_timeouts (cb : CircuitBreaker) (now : Int) (t : Bool) :
    (cb.on_failure now t).total_timeouts =
      cb.total_timeouts + (if t then 1 else 0) := by
  unfold CircuitBreaker.on_failure
  dsimp only
  cases t
  · simp only [Bool.false_eq_true, if_false, add_zero]
    split <;> rfl
  · simp only [if_true]
    split <;> rfl

/-- C7 amended: the configured call timeout is never enforced.  The
duration of a successful invocation has no effect at all on the breaker
(in particular a success is recorded as a success however long it ran,
with `total_timeouts` unchanged); `total_timeouts` increments exactly when
the operation raises a timeout/connectivity error. -/
theorem call_timeout_not_enforced (cb : CircuitBreaker) (now : Int) (d d' : ℚ)
    (hst : cb.state = .closed) :
    cb.call now (.success d) = cb.call now (.success d') ∧
    (cb.call now (.success d)).1 = .succeeded ∧
    ((cb.call now (.success d)).2.1).total_timeouts = cb.total_timeouts ∧
    ((cb.call now (.failure true)).2.1).total_timeouts = cb.total_timeouts + 1 ∧
    ((cb.call now (.failure false)).2.1).total_timeouts = cb.total_timeouts := by
  have hpass := gate_pass cb now (by rw [hst]; simp)
  refine ⟨rfl, ?_, ?_, ?_, ?_⟩
  · simp [CircuitBreaker.call, hpass]
  · simp [CircuitBreaker.call, hpass, CircuitBreaker.on_success, hst]
  · simp [CircuitBreaker.call, hpass, on_failure_timeouts]
  · simp [CircuitBreaker.call, hpass, on_failure_timeouts]

/-- C7 counterexample: with the default configuration (call timeout 30
seconds), an operation that runs for 1000 seconds and then returns is
recorded as a plain success: the call result is `succeeded` and neither
`total_timeouts` nor `total_failures` moves, contradicting the claim that
exceeding `callTimeout` is treated as a failure and counted as a
timeout. -/
theorem long_call_counted_as_success_counterexample :
    (cbT.config.timeout : ℚ) < 1000 ∧
    (cbT.call 0 (.success 1000)).1 = .succeeded ∧
    ((cbT.call 0 (.success 1000)).2.1).total_timeouts = 0 ∧
    ((cbT.call 0 (.success 1000)).2.1).total_failures = 0 ∧
    ((cbT.call 0 (.success 1000)).2.1).state = .closed := by
  refine ⟨?_, by decide, by decide, by decide, by decide⟩
  norm_num [cbT, CircuitBreaker.init]

/-- C6 counterexample: a call that hits a fresh cache entry returns the
stored value without invoking the fetch function, but does not record a
hit: the `hits` statistic stays 0, whereas `record_cache_hit` (what the
claim says should happen) would raise it to 1. -/
theorem cache_hit_not_recorded_counterexample :
    (cache_expensive_calculation 300 "k" (99 : Int) 10 s0).1 = 7 ∧
    (cache_expensive_calculation 300 "k" (99 : Int) 10 s0).2.2 = 0 ∧
    (cache_expensive_calculation 300 "k" (99 : Int) 10 s0).2.1.hits = 0 ∧
    (record_cache_hit s0).hits = 1 ∧
    ¬ ((cache_expensive_calculation 300 "k" (99 : Int) 10 s0).2.1.hits = s0.hits + 1) := by
  refine ⟨?_, ?_, ?_, ?_, ?_⟩ <;>
    norm_num [cache_expensive_calculation, record_cache_hit, s0]

theorem cache_hit_eq {α : Type} (ttl : ℚ) (key : String) (v fv : α) (now : ℚ)
    (s : SessionState α) (hent : s.entries key = some v)
    (hfresh : now - (s.timestamps key).getD 0 < ttl) :
    cache_expensive_calculation ttl key fv now s = (v, s, 0) := by
  unfold cache_expensive_calculation
  rw [hent]
  dsimp only
  rw [if_pos hfresh]

theorem cache_miss_eq {α : Type} (ttl : ℚ) (key : String) (fv : α) (now : ℚ)
    (s : SessionState α) (hent : s.entries key = none) :
    cache_expensive_calculation ttl key fv now s =
      (fv, { s with
        entries := fun k => if k = key then some fv else s.entries k
        timestamps := fun k => if k = key then some now else s.timestamps k }, 1) := by
  unfold cache_expensive_calculation
  rw [hent]
  rfl

theorem cache_stale_eq {α : Type} (ttl : ℚ) (key : String) (v fv : α) (now : ℚ)
    (s : SessionState α) (hent : s.entries key = some v)
    (hstale : ¬ (now - (s.timestamps key).getD 0 < ttl)) :
    cache_expensive_calculation ttl key fv now s =
      (fv, { s with
        entries := fun k => if k = key then some fv else s.entries k
        timestamps := fun k => if k = key then some now else s.timestamps k }, 1) := by
  unfold cache_expensive_calculation
  rw [hent]
  dsimp only
  rw [if_neg hstale]
  rfl

/-- C6 amended: if a stored entry is younger than `ttl`, the call returns
it unchanged without invoking the fetch function; otherwise the fetch
function runs exactly once and its result is stored under the key with
the current time as its timestamp (so it expires `ttl` seconds later),
with the hit/miss statistics untouched in both cases; consequently two
calls within `ttl` of each other invoke the fetch function exactly
once. -/
theorem cache_ttl_spec {α : Type} (ttl : ℚ) (key : String) (v fv fv2 : α)
    (now now2 : ℚ) (s : SessionState α) :
    (s.entries key = some v → now - (s.timestamps key).getD 0 < ttl →
      cache_expensive_calculation ttl key fv now s = (v, s, 0)) ∧
    (s.entries key = none →
      (cache_expensive_calculation ttl key fv now s).1 = fv ∧
      (cache_expensive_calculation ttl key fv now s).2.2 = 1 ∧
      (cache_expensive_calculation ttl key fv now s).2.1.entries key = some fv ∧
      (cache_expensive_calculation ttl key fv now s).2.1.timestamps key = some now ∧
      (cache_expensive_calculation ttl key fv now s).2.1.hits = s.hits ∧
      (cache_expensive_calculation ttl key fv now s).2.1.misses = s.misses) ∧
    (s.entries key = some v → ¬ (now - (s.timestamps key).getD 0 < ttl) →
      (cache_expensive_calculation ttl key fv now s).1 = fv ∧
      (cache_expensive_calculation ttl key fv now s).2.2 = 1 ∧
      (cache_expensive_calculation ttl key fv now s).2.1.entries key = some fv ∧
      (cache_expensive_calculation ttl key fv now s).2.1.timestamps key = some now) ∧
    (s.entries key = none → now2 - now < ttl →
      (cache_expensive_calculation ttl key fv now s).2.2 +
        (cache_expensive_calculation ttl key fv2 now2
          (cache_expensive_calculation ttl key fv now s).2.1).2.2 = 1 ∧
      (cache_expensive_calculation ttl key fv2 now2
          (cache_expensive_calculation ttl key fv now s).2.1).1 = fv) := by
  refine ⟨cache_hit_eq ttl key v fv now s, ?_, ?_, ?_⟩
  · intro hent
    rw [cache_miss_eq ttl key fv now s hent]
    refine ⟨rfl, rfl, by simp, by simp, rfl, rfl⟩
  · intro hent hstale
    rw [cache_stale_eq ttl key v fv now s hent hstale]
    exact ⟨rfl, rfl, by simp, by simp⟩
  · intro hent hwin
    rw [cache_miss_eq ttl key fv now s hent]
    dsimp only
    rw [cache_hit_eq ttl key fv fv2 now2 _ (by simp) (by simpa using hwin)]
    exact ⟨rfl, rfl⟩
/-- C10: every invocation of a `resilient_api_call`-wrapped function runs
against a freshly constructed registry: the breaker it obtains is a
default-configured breaker in the closed state with zero counters and no
recorded failure time, the registry's telemetry starts empty, the wrapper
is exactly `resilient_call` on the fresh registry, and in two successive
invocations of the wrapped function each one is a standalone first-time
run (no state flows from the first into the second). -/
theorem fresh_registry_per_invocation :
    (∀ service : String,
      (EnhancedErrorRecovery.init.get_circuit_breaker service none).1.state = .closed ∧
      (EnhancedErrorRecovery.init.get_circuit_breaker service none).1.failure_count = 0 ∧
      (EnhancedErrorRecovery.init.get_circuit_breaker service none).1.success_count = 0 ∧
      (EnhancedErrorRecovery.init.get_circuit_breaker service
        none).1.last_failure_time = none ∧
      (EnhancedErrorRecovery.init.get_circuit_breaker service none).1.total_requests = 0 ∧
      (EnhancedErrorRecovery.init.get_circuit_breaker service none).1.total_failures = 0 ∧
      (EnhancedErrorRecovery.init.get_circuit_breaker service none).1.total_timeouts = 0 ∧
      (EnhancedErrorRecovery.init.get_circuit_breaker service none).1.config =
        ({} : CircuitBreakerConfig)) ∧
    ((∀ k, EnhancedErrorRecovery.init.error_counts k = 0) ∧
      EnhancedErrorRecovery.init.recent_errors = []) ∧
    (∀ (service strategy : String) (outs : Nat → Outcome) (nowAt : Nat → Int)
        (rand : Nat → ℚ) (tEnd : Int),
      resilient_api_call service strategy outs nowAt rand tEnd =
        EnhancedErrorRecovery.init.resilient_call service strategy outs nowAt rand tEnd) ∧
    (∀ (service strategy : String) (outs1 outs2 : Nat → Outcome)
        (nowAt1 nowAt2 : Nat → Int) (rand1 rand2 : Nat → ℚ) (t1 t2 : Int),
      (resilientApiCallTwice service strategy outs1 outs2 nowAt1 nowAt2
          rand1 rand2 t1 t2).2 =
        resilient_api_call service strategy outs2 nowAt2 rand2 t2 ∧
      (resilientApiCallTwice service strategy outs1 outs2 nowAt1 nowAt2
          rand1 rand2 t1 t2).1 =
        resilient_api_call service strategy outs1 nowAt1 rand1 t1) := by
  exact ⟨fun _ => ⟨rfl, rfl, rfl, rfl, rfl, rfl, rfl, rfl⟩, ⟨fun _ => rfl, rfl⟩,
    fun _ _ _ _ _ _ => rfl, fun _ _ _ _ _ _ _ _ _ _ => ⟨rfl, rfl⟩⟩

/-- C3 witness: the concrete open breaker `cbB` (opened at time 0,
recovery timeout 60) rejects a call at time 30 touching only
`total_requests`. -/
theorem open_fastfail_frame_witness :
    cbB.call 30 (.failure false) =
      (.rejected, { cbB with total_requests := cbB.total_requests + 1 }, 0) :=
  open_fastfail_frame cbB 30 0 (.failure false) (by decide) (by decide) (by decide)

/-- C9 witness: the concrete open breaker `cbB` probes at time 100 (past
the 60-second recovery timeout): the gate admits the call in half-open
state and the operation runs exactly once. -/
theorem open_recovery_halfopen_probe_witness :
    (cbB.gate 100).2 = true ∧ (cbB.gate 100).1.state = .halfOpen ∧
    (cbB.call 100 (.failure true)).2.2 = 1 :=
  open_recovery_halfopen_probe cbB 100 0 (.failure true) (by decide) (by decide) (by decide)

/-- C5 witness: a fresh breaker with failure threshold 2 is open after
exactly two recorded failures. -/
theorem closed_threshold_failures_open_witness :
    (recordFailures (CircuitBreaker.init { failure_threshold := 2 })
      [(0, false), (5, true)]).state = .open_ :=
  closed_threshold_failures_open (CircuitBreaker.init { failure_threshold := 2 })
    [(0, false), (5, true)] (by decide) (by decide) (by decide) (by decide)

/-- C1 witness (amended claim): on the half-open-to-closed transition of
the concrete breaker `cbC` both counters reset to 0, and the
open-to-half-open gate step of `cbD` leaves both counters unchanged. -/
theorem counter_reset_on_enter_closed_witness :
    (cbC.on_success 1).failure_count = 0 ∧
    (cbC.on_success 1).success_count = 0 ∧
    ((cbD.gate 200).1.success_count = cbD.success_count ∧
      (cbD.gate 200).1.failure_count = cbD.failure_count) :=
  ⟨(counter_reset_on_enter_closed cbC 1 0).1 (by decide),
   (counter_reset_on_enter_closed cbC 1 0).2.1 (by decide) (by decide),
   (counter_reset_on_enter_closed cbD 1 200).2.2 (by decide)⟩

/-- C7 witness (amended claim): on the default-configured closed breaker
`cbT`, a success leaves `total_timeouts` alone whatever its duration, and
failures bump it exactly when timeout-like. -/
theorem call_timeout_not_enforced_witness :
    cbT.call 0 (.success 3) = cbT.call 0 (.success 4) ∧
    (cbT.call 0 (.success 3)).1 = .succeeded ∧
    ((cbT.call 0 (.success 3)).2.1).total_timeouts = cbT.total_timeouts ∧
    ((cbT.call 0 (.failure true)).2.1).total_timeouts = cbT.total_timeouts + 1 ∧
    ((cbT.call 0 (.failure false)).2.1).total_timeouts = cbT.total_timeouts :=
  call_timeout_not_enforced cbT 0 3 4 (by decide)

/-- C4 witness: with the concrete three-attempt strategy, an operation
failing on every attempt is invoked exactly 3 times and surfaces the
retry-exhausted wrapper around the last error. -/
theorem retry_exhausted_only_surfaced_witness :
    (rsNoJitter.execute (fun _ => (Except.error (AttemptErr.opFailure false) :
        Except AttemptErr Unit)) (fun _ => 0)).1 =
      .error (.retryExhausted (some (.opFailure false))) ∧
    (rsNoJitter.execute (fun _ => (Except.error (AttemptErr.opFailure false) :
        Except AttemptErr Unit)) (fun _ => 0)).2.1 = 3 := by
  have h := retry_exhausted_only_surfaced.1 rsNoJitter (fun _ => .opFailure false)
    (fun _ => 0) (by decide)
  simpa [rsNoJitter] using h

/-- C8 witness: concrete delay computations with jitter disabled and
enabled, and the 1s/2s delay sequence of the concrete scenario. -/
theorem backoff_delay_spec_witness :
    rsNoJitter.calculate_delay 1 0 =
      min (rsNoJitter.base_delay * rsNoJitter.backoff_factor ^ 1) rsNoJitter.max_delay ∧
    (∃ c : ℚ, 1/2 ≤ c ∧ c ≤ 1 ∧
      ({} : RetryStrategy).calculate_delay 1 0 =
        min (({} : RetryStrategy).base_delay * ({} : RetryStrategy).backoff_factor ^ 1)
          ({} : RetryStrategy).max_delay * c) ∧
    (rsNoJitter.execute (fun _ => (Except.error (AttemptErr.opFailure true) :
        Except AttemptErr Unit)) (fun _ => 0)).2.2 = [1, 2] :=
  ⟨backoff_delay_spec.1 rsNoJitter 1 0 rfl,
   backoff_delay_spec.2.1 ({} : RetryStrategy) 1 0 rfl (by norm_num) (by norm_num),
   backoff_delay_spec.2.2.2 (fun _ => .opFailure true) (fun _ => 0)⟩

/-- C6 witness (amended claim): a call hitting the fresh entry of `s0`
returns the stored value with no fetch, and on an absent key two calls
within the TTL fetch exactly once. -/
theorem cache_ttl_spec_witness :
    cache_expensive_calculation 300 "k" (99 : Int) 10 s0 = (7, s0, 0) ∧
    ((cache_expensive_calculation 300 "j" (41 : Int) 10 s0).2.2 +
      (cache_expensive_calculation 300 "j" (43 : Int) 20
        (cache_expensive_calculation 300 "j" (41 : Int) 10 s0).2.1).2.2 = 1 ∧
     (cache_expensive_calculation 300 "j" (43 : Int) 20
        (cache_expensive_calculation 300 "j" (41 : Int) 10 s0).2.1).1 = 41) :=
  ⟨(cache_ttl_spec 300 "k" (7 : Int) 99 43 10 20 s0).1 (by norm_num [s0]) (by norm_num [s0]),
   (cache_ttl_spec 300 "j" (0 : Int) 41 43 10 20 s0).2.2.2 (by decide) (by norm_num)⟩

end FPLSpec
